import Mathlib

/-!
Shallow embedding of the todo-list task manager.

Sources embedded:
- src/todo-list/src/types/index.ts (TaskState, TaskPriority, Task, ConcreteTaskFactory)
- src/todo-list/src/patterns/state/TaskStateHandlers.ts (the four state handlers)
- src/unnamed/part_000 (priority strategies and PriorityStrategyFactory)
- src/unnamed/part_001 (TaskSubject, the observer subject)
- src/todo-list/src/services/TaskService.ts (TaskService operations)

Modelling conventions:
- Timestamps (JS Date values) are Nat milliseconds since the Unix epoch; each
  call of new Date() in the source becomes an explicit now parameter.
- Mutation of the service is explicit state passing on a TaskService value; the
  outward effects of one operation (observer update callbacks and storage
  setItem calls) are returned as an ordered list of Event values.
- The storage blob JSON.stringify produces is modelled by its information
  content, the array of serialized task records (StoredTask): the enum fields
  keep their values, the two Date fields become their ISO 8601 strings via
  Date.toISOString, exactly as JSON.stringify does through Date.toJSON.
  The inverse direction new Date(string) is implemented as an ISO 8601 parse.
- uuidv4() is nondeterministic, so the fresh id is an explicit parameter.
-/

namespace Todo

/-- TaskState enum from src/todo-list/src/types/index.ts. -/
inductive TaskState
  | NEW
  | IN_PROGRESS
  | COMPLETED
  | POSTPONED
deriving DecidableEq, Repr

/-- TaskPriority enum from src/todo-list/src/types/index.ts. -/
inductive TaskPriority
  | HIGH
  | MEDIUM
  | LOW
deriving DecidableEq, Repr

/-- Task record from src/todo-list/src/types/index.ts; Date fields are Nat
milliseconds since the epoch. -/
structure Task where
  id : String
  title : String
  description : String
  state : TaskState
  priority : TaskPriority
  createdAt : Nat
  updatedAt : Nat
deriving DecidableEq, Repr

/-- PriorityStrategy record: the two observable values of a strategy object
(getPriorityLevel and getColor are constant methods in the source). -/
structure PriorityStrategy where
  getPriorityLevel : Nat
  getColor : String
deriving DecidableEq, Repr

/-- HighPriorityStrategy from src/unnamed/part_000: level 3, red. -/
def HighPriorityStrategy : PriorityStrategy :=
  { getPriorityLevel := 3, getColor := "#ff4d4d" }

/-- MediumPriorityStrategy from src/unnamed/part_000: level 2, orange. -/
def MediumPriorityStrategy : PriorityStrategy :=
  { getPriorityLevel := 2, getColor := "#ffa64d" }

/-- LowPriorityStrategy from src/unnamed/part_000: level 1, green. -/
def LowPriorityStrategy : PriorityStrategy :=
  { getPriorityLevel := 1, getColor := "#4dff4d" }

/-- The string value of a TaskPriority enum member (TS enums are string
valued, so a TaskPriority at runtime is one of these strings). -/
def TaskPriority.value : TaskPriority → String
  | .HIGH => "HIGH"
  | .MEDIUM => "MEDIUM"
  | .LOW => "LOW"

/-- PriorityStrategyFactory.getStrategy from src/unnamed/part_000. The switch
runs on the runtime value of the enum, which is a string, so the argument is a
String here; the default branch returns the MEDIUM strategy. -/
def PriorityStrategyFactory.getStrategy (priority : String) : PriorityStrategy :=
  match priority with
  | "HIGH" => HighPriorityStrategy
  | "MEDIUM" => MediumPriorityStrategy
  | "LOW" => LowPriorityStrategy
  | _ => MediumPriorityStrategy

/-- A state handler object from src/todo-list/src/patterns/state/TaskStateHandlers.ts:
handleState mutates a task (here: returns the mutated task, with the new Date()
of the stamp passed as the now argument), and the two transition queries are
constant methods, so they are data. -/
structure TaskStateHandler where
  handleState : Task → Nat → Task
  getNextState : Option TaskState
  getPreviousState : Option TaskState

/-- NewStateHandler: stamps state := NEW, next IN_PROGRESS, no previous. -/
def NewStateHandler : TaskStateHandler where
  handleState := fun task now => { task with state := .NEW, updatedAt := now }
  getNextState := some .IN_PROGRESS
  getPreviousState := none

/-- InProgressStateHandler: stamps state := IN_PROGRESS, next COMPLETED,
previous NEW. -/
def InProgressStateHandler : TaskStateHandler where
  handleState := fun task now => { task with state := .IN_PROGRESS, updatedAt := now }
  getNextState := some .COMPLETED
  getPreviousState := some .NEW

/-- CompletedStateHandler: stamps state := COMPLETED, no next, previous
IN_PROGRESS. -/
def CompletedStateHandler : TaskStateHandler where
  handleState := fun task now => { task with state := .COMPLETED, updatedAt := now }
  getNextState := none
  getPreviousState := some .IN_PROGRESS

/-- PostponedStateHandler: stamps state := POSTPONED, next IN_PROGRESS,
previous NEW. -/
def PostponedStateHandler : TaskStateHandler where
  handleState := fun task now => { task with state := .POSTPONED, updatedAt := now }
  getNextState := some .IN_PROGRESS
  getPreviousState := some .NEW

/-- ConcreteTaskFactory.createTask from the factory part of
src/todo-list/src/types: fresh id (uuidv4, passed in), state NEW, both
timestamps set to the same now. -/
def ConcreteTaskFactory.createTask (title description : String)
    (priority : TaskPriority) (id : String) (now : Nat) : Task :=
  { id := id, title := title, description := description,
    state := .NEW, priority := priority, createdAt := now, updatedAt := now }

/-! ### Date serialization: Date.toISOString and new Date(isoString)

JSON.stringify turns each Date field into its ISO 8601 string
(YYYY-MM-DDTHH:mm:ss.sssZ for years up to 9999) and loadTasks turns the string
back into a Date. Implemented here over Nat milliseconds, with the standard
civil-calendar conversion. -/

/-- The decimal digit character for a digit value below 10. -/
def natDigitChar : Nat → Char
  | 0 => '0'
  | 1 => '1'
  | 2 => '2'
  | 3 => '3'
  | 4 => '4'
  | 5 => '5'
  | 6 => '6'
  | 7 => '7'
  | 8 => '8'
  | 9 => '9'
  | _ => '0'

/-- Zero-padded fixed-width decimal printing, most significant digit first. -/
def padDigits : Nat → Nat → List Char
  | 0, _ => []
  | w + 1, n => padDigits w (n / 10) ++ [natDigitChar (n % 10)]

/-- The numeric value of a decimal digit character. -/
def digitVal : Char → Nat
  | '0' => 0
  | '1' => 1
  | '2' => 2
  | '3' => 3
  | '4' => 4
  | '5' => 5
  | '6' => 6
  | '7' => 7
  | '8' => 8
  | '9' => 9
  | _ => 0

/-- Reads a run of decimal digit characters into a number. -/
def readDigits : List Char → Nat → Nat
  | [], acc => acc
  | c :: cs, acc => readDigits cs (acc * 10 + digitVal c)

/-- Civil date (year, month, day) of a day count since 1970-01-01, by the
standard proleptic-Gregorian algorithm over 400-year eras. -/
def civilFromDays (z : Nat) : Nat × Nat × Nat :=
  let zs := z + 719468
  let era := zs / 146097
  let doe := zs % 146097
  let yoe := (doe - doe / 1460 + doe / 36524 - doe / 146096) / 365
  let y := yoe + era * 400
  let doy := doe - (365 * yoe + yoe / 4 - yoe / 100)
  let mp := (5 * doy + 2) / 153
  let d := doy - (153 * mp + 2) / 5 + 1
  let m := if mp < 10 then mp + 3 else mp - 9
  (if m ≤ 2 then y + 1 else y, m, d)

/-- Day count since 1970-01-01 of a civil date (inverse of civilFromDays). -/
def daysFromCivil (y m d : Nat) : Nat :=
  let ya := y - (if m ≤ 2 then 1 else 0)
  let era := ya / 400
  let yoe := ya - era * 400
  let doy := (153 * (if 2 < m then m - 3 else m + 9) + 2) / 5 + d - 1
  let doe := yoe * 365 + yoe / 4 - yoe / 100 + doy
  era * 146097 + doe - 719468

/-- The character list of Date.toISOString for a millisecond timestamp. -/
def dateToISOChars (n : Nat) : List Char :=
  let ms := n % 1000
  let s := n / 1000 % 60
  let mi := n / 60000 % 60
  let h := n / 3600000 % 24
  let days := n / 86400000
  let ymd := civilFromDays days
  padDigits 4 ymd.1 ++ '-' :: padDigits 2 ymd.2.1 ++ '-' :: padDigits 2 ymd.2.2 ++
    'T' :: padDigits 2 h ++ ':' :: padDigits 2 mi ++ ':' :: padDigits 2 s ++
    '.' :: padDigits 3 ms ++ ['Z']

/-- Date.toISOString over Nat milliseconds. -/
def dateToISOString (n : Nat) : String :=
  String.mk (dateToISOChars n)

/-- Parse of the fixed-width ISO 8601 format accepted back by new Date(s),
at the character level; a malformed string yields 0 (standing for NaN). -/
def parseISOChars : List Char → Nat
  | [y1, y2, y3, y4, a1, m1, m2, a2, d1, d2, a3, h1, h2, a4, i1, i2, a5,
     s1, s2, a6, f1, f2, f3, a7] =>
      if a1 = '-' ∧ a2 = '-' ∧ a3 = 'T' ∧ a4 = ':' ∧ a5 = ':' ∧ a6 = '.' ∧ a7 = 'Z' then
        let y := readDigits [y1, y2, y3, y4] 0
        let mo := readDigits [m1, m2] 0
        let d := readDigits [d1, d2] 0
        let h := readDigits [h1, h2] 0
        let mi := readDigits [i1, i2] 0
        let s := readDigits [s1, s2] 0
        let ms := readDigits [f1, f2, f3] 0
        daysFromCivil y mo d * 86400000 + h * 3600000 + mi * 60000 + s * 1000 + ms
      else 0
  | _ => 0

/-- new Date(isoString).getTime() over the modelled strings. -/
def dateFromISOString (str : String) : Nat :=
  parseISOChars str.data

/-- First millisecond of year 10000: timestamps below this bound print in the
fixed-width 24-character ISO form. -/
def ISODateBound : Nat := 253402300800000

/-! ### Stored records and the storage blob -/

/-- One serialized task record inside the JSON blob: same fields as Task, with
the two Date fields replaced by their ISO strings (Date.toJSON). The enum
fields serialize as their own string values, so they keep their type here. -/
structure StoredTask where
  id : String
  title : String
  description : String
  state : TaskState
  priority : TaskPriority
  createdAt : String
  updatedAt : String
deriving DecidableEq, Repr

/-- Serialization of one task into its stored record (JSON.stringify per
record: Date fields via toISOString). -/
def Task.toStored (t : Task) : StoredTask :=
  { id := t.id, title := t.title, description := t.description,
    state := t.state, priority := t.priority,
    createdAt := dateToISOString t.createdAt,
    updatedAt := dateToISOString t.updatedAt }

/-- The rehydration loadTasks applies to one parsed record: spread the record
and rebuild the two Date fields with new Date(string). -/
def StoredTask.rehydrate (t : StoredTask) : Task :=
  { id := t.id, title := t.title, description := t.description,
    state := t.state, priority := t.priority,
    createdAt := dateFromISOString t.createdAt,
    updatedAt := dateFromISOString t.updatedAt }

/-! ### Observer subject and the service -/

/-- An outward effect of a service operation: one observer update callback
(carrying the collection passed to it), or one storage setItem call (carrying
the key and the serialized blob). -/
inductive Event
  | update (observer : Nat) (tasks : List Task)
  | setItem (key : String) (value : List StoredTask)
deriving DecidableEq, Repr

/-- Whether an event is an update callback delivered to listener l. -/
def Event.isUpdate (l : Nat) : Event → Bool
  | .update o _ => o == l
  | .setItem _ _ => false

/-- Whether an event is an update callback delivered to listener l carrying
exactly the collection ts. -/
def Event.isUpdateWith (l : Nat) (ts : List Task) : Event → Bool
  | .update o us => o == l && us == ts
  | .setItem _ _ => false

/-- Whether an event is a setItem call on key k. -/
def Event.isSetItemKey (k : String) : Event → Bool
  | .update _ _ => false
  | .setItem key _ => key == k

/-- TaskSubject from src/unnamed/part_001: the observer list (listeners as
numeric identities) and the held task collection. -/
structure TaskSubject where
  observers : List Nat
  tasks : List Task
deriving Repr

/-- TaskSubject.attach: push the observer; no deduplication. -/
def TaskSubject.attach (su : TaskSubject) (observer : Nat) : TaskSubject :=
  { su with observers := su.observers ++ [observer] }

/-- TaskSubject.detach: indexOf plus splice, that is, remove the first
occurrence by identity; no change when the observer is absent. -/
def TaskSubject.detach (su : TaskSubject) (observer : Nat) : TaskSubject :=
  { su with observers := su.observers.erase observer }

/-- TaskSubject.notify: one update callback per registered observer, in
registration order, each carrying the held collection. -/
def TaskSubject.notify (su : TaskSubject) : List Event :=
  su.observers.map (fun observer => Event.update observer su.tasks)

/-- TaskSubject.setTasks: replace the collection, then notify. -/
def TaskSubject.setTasks (su : TaskSubject) (tasks : List Task) :
    TaskSubject × List Event :=
  let su' := { su with tasks := tasks }
  (su', su'.notify)

/-- TaskSubject.getTasks. -/
def TaskSubject.getTasks (su : TaskSubject) : List Task :=
  su.tasks

/-- The fixed storage key STORAGE_KEY of TaskService. -/
def STORAGE_KEY : String := "tasks"

/-- TaskService state: the subject it owns. The factory is stateless and the
storage adapter is abstracted into setItem events. -/
structure TaskService where
  taskSubject : TaskSubject
deriving Repr

/-- TaskService.saveTasks: one setItem of the serialized collection under the
fixed key. -/
def TaskService.saveTasks (svc : TaskService) : List Event :=
  [Event.setItem STORAGE_KEY (svc.taskSubject.getTasks.map Task.toStored)]

/-- TaskService.loadTasks: when the storage holds a blob, parse it, rehydrate
the Date fields of every record, and seed the subject; otherwise do nothing. -/
def TaskService.loadTasks (svc : TaskService) (storedTasks : Option (List StoredTask)) :
    TaskService × List Event :=
  match storedTasks with
  | some stored =>
      let tasks := stored.map StoredTask.rehydrate
      let se := svc.taskSubject.setTasks tasks
      ({ svc with taskSubject := se.1 }, se.2)
  | none => (svc, [])

/-- TaskService.createTask: build the task through the factory, append it to
the collection, set it on the subject (notifying), persist, return the task. -/
def TaskService.createTask (svc : TaskService) (title description : String)
    (priority : TaskPriority) (id : String) (now : Nat) :
    TaskService × List Event × Task :=
  let task := ConcreteTaskFactory.createTask title description priority id now
  let tasks := svc.taskSubject.getTasks ++ [task]
  let se := svc.taskSubject.setTasks tasks
  let svc' : TaskService := { svc with taskSubject := se.1 }
  (svc', se.2 ++ svc'.saveTasks, task)

/-- TaskService.updateTask: map over the collection replacing every task whose
id matches by the argument with updatedAt stamped to now, set the result on
the subject (notifying), persist. -/
def TaskService.updateTask (svc : TaskService) (task : Task) (now : Nat) :
    TaskService × List Event :=
  let tasks := svc.taskSubject.getTasks.map (fun t =>
    if t.id = task.id then { task with updatedAt := now } else t)
  let se := svc.taskSubject.setTasks tasks
  let svc' : TaskService := { svc with taskSubject := se.1 }
  (svc', se.2 ++ svc'.saveTasks)

/-- TaskService.deleteTask: filter out the task with the given id, set the
result on the subject (notifying), persist. -/
def TaskService.deleteTask (svc : TaskService) (taskId : String) :
    TaskService × List Event :=
  let tasks := svc.taskSubject.getTasks.filter (fun t => t.id ≠ taskId)
  let se := svc.taskSubject.setTasks tasks
  let svc' : TaskService := { svc with taskSubject := se.1 }
  (svc', se.2 ++ svc'.saveTasks)

/-- TaskService private helper: the handler for a given state. The switch is
exhaustive over the enum; the default null branch of the source is
unreachable for enum values, and the Option return type keeps its shape. -/
def TaskService.getHandlerForState (state : TaskState) : Option TaskStateHandler :=
  match state with
  | .NEW => some NewStateHandler
  | .IN_PROGRESS => some InProgressStateHandler
  | .COMPLETED => some CompletedStateHandler
  | .POSTPONED => some PostponedStateHandler

/-- TaskService.getPossibleNextState: pure query through the handler of the
current state of the task. -/
def TaskService.getPossibleNextState (svc : TaskService) (task : Task) :
    Option TaskState :=
  match TaskService.getHandlerForState task.state with
  | some handler => handler.getNextState
  | none => none

/-- TaskService.getPossiblePreviousState: pure query through the handler of
the current state of the task. -/
def TaskService.getPossiblePreviousState (svc : TaskService) (task : Task) :
    Option TaskState :=
  match TaskService.getHandlerForState task.state with
  | some handler => handler.getPreviousState
  | none => none

/-- TaskService.changeTaskState: look up the handler of the target state, let
it stamp the task (nowHandle models the new Date() inside handleState), then
delegate to updateTask (nowUpdate models the new Date() there); the mutated
task value is returned alongside, since the source mutates the caller
reference in place. Without a handler the call is a no-op. -/
def TaskService.changeTaskState (svc : TaskService) (task : Task)
    (newState : TaskState) (nowHandle nowUpdate : Nat) :
    TaskService × List Event × Task :=
  match TaskService.getHandlerForState newState with
  | some handler =>
      let task' := handler.handleState task nowHandle
      let r := svc.updateTask task' nowUpdate
      (r.1, r.2, task')
  | none => (svc, [], task)

/-- TaskService.getTasks: delegate to the subject. -/
def TaskService.getTasks (svc : TaskService) : List Task :=
  svc.taskSubject.getTasks

/-- TaskService.attachObserver: delegate to the subject. -/
def TaskService.attachObserver (svc : TaskService) (observer : Nat) : TaskService :=
  { svc with taskSubject := svc.taskSubject.attach observer }

/-- TaskService.detachObserver: delegate to the subject. -/
def TaskService.detachObserver (svc : TaskService) (observer : Nat) : TaskService :=
  { svc with taskSubject := svc.taskSubject.detach observer }

/-! ### Bounded checking infrastructure for the calendar proofs

checkBelow P n folds P over 0, ..., n-1 with a raw Nat.rec so that kernel
reduction of the closed term runs iteratively at the head, which lets a
decision over the whole 400-year era go through the kernel. -/

/-- Conjunction of P over lo, lo + 1, ..., lo + len - 1, as an iteratively
reducing fold. -/
def checkFrom (P : Nat → Bool) (lo len : Nat) : Bool :=
  Nat.rec true (fun k ih => P (lo + k) && ih) len

/-- Forces its first argument to a numeral before passing it on: under kernel
reduction the scrutinee of Nat.casesOn is evaluated first, so every use of the
bound variable inside f shares that one evaluation. -/
def seqNat (n : Nat) (f : Nat → Bool) : Bool :=
  Nat.casesOn n (f 0) (fun m => f (m + 1))

/-- Year of era computed from a day of era (the quotient formula inside
civilFromDays). -/
def yoeOf (doe : Nat) : Nat :=
  (doe - doe / 1460 + doe / 36524 - doe / 146096) / 365

/-- First day of era of the year of era of doe. -/
def ysOf (doe : Nat) : Nat :=
  365 * yoeOf doe + yoeOf doe / 4 - yoeOf doe / 100

/-- Day of year (March based) of a day of era. -/
def doyOf (doe : Nat) : Nat :=
  doe - ysOf doe

/-- March based month index of a day of era. -/
def mpOf (doe : Nat) : Nat :=
  (5 * doyOf doe + 2) / 153

/-- Civil day of month of a day of era. -/
def dayOf (doe : Nat) : Nat :=
  doyOf doe - (153 * mpOf doe + 2) / 5 + 1

/-- Civil month of a day of era. -/
def monthOf (doe : Nat) : Nat :=
  if mpOf doe < 10 then mpOf doe + 3 else mpOf doe - 9

/-- The per-day facts inside one 146097-day era that the calendar round trip
needs: bounds for the computed year-of-era, month and day, and the exact
reconstruction of the day-of-era from the computed month and day. -/
def eraDayFacts (doe : Nat) : Bool :=
  seqNat ((doe - doe / 1460 + doe / 36524 - doe / 146096) / 365) (fun yoe =>
  seqNat (365 * yoe + yoe / 4 - yoe / 100) (fun ys =>
  seqNat (doe - ys) (fun doy =>
  seqNat ((5 * doy + 2) / 153) (fun mp =>
  seqNat (doy - (153 * mp + 2) / 5 + 1) (fun d =>
  seqNat (if mp < 10 then mp + 3 else mp - 9) (fun m =>
  decide (yoe ≤ 399) && decide (ys ≤ doe) && decide (1 ≤ m) && decide (m ≤ 12) &&
    decide (1 ≤ d) && decide (d ≤ 31) &&
    decide (ys + ((153 * (if 2 < m then m - 3 else m + 9) + 2) / 5 + d - 1) = doe) &&
    decide (¬(m ≤ 2 ∧ yoe = 399 ∧ doe < 146037))))))))

def broadcastEvents (observers : List Nat) (tasks : List Task) : List Event :=
  observers.map (fun o => Event.update o tasks) ++
    [Event.setItem STORAGE_KEY (tasks.map Task.toStored)]

def tasksWF (tasks : List Task) : Prop :=
  ∀ t ∈ tasks, t.createdAt ≤ t.updatedAt

def sampleTaskA : Task :=
  { id := "a1", title := "Buy milk", description := "", state := TaskState.NEW,
    priority := TaskPriority.LOW, createdAt := 100, updatedAt := 200 }

def sampleTaskB : Task :=
  { id := "b2", title := "Second task", description := "notes",
    state := TaskState.IN_PROGRESS, priority := TaskPriority.HIGH,
    createdAt := 0, updatedAt := 0 }

def sampleSubject : TaskSubject :=
  { observers := [7], tasks := [sampleTaskA] }

def sampleService : TaskService :=
  { taskSubject := sampleSubject }

def blankTitle : String := ""

def sampleDescription : String := "details"

def sampleFreshId : String := "c3"

def sampleUnknownPriority : String := "URGENT"

def sampleMissingId : String := "zz"

/-! ## Helper lemmas -/

theorem checkFrom_sound (P : Nat → Bool) (lo : Nat) :
    ∀ len, checkFrom P lo len = true → ∀ i, i < len → P (lo + i) = true := by
  intro len
  induction len with
  | zero => intro _ i hi; omega
  | succ n ih =>
      intro h i hi
      have hstep : checkFrom P lo (n + 1) = (P (lo + n) && checkFrom P lo n) := rfl
      rw [hstep, Bool.and_eq_true] at h
      rcases Nat.lt_or_ge i n with hlt | hge
      · exact ih h.2 i hlt
      · have : i = n := by omega
        subst this
        exact h.1

theorem seqNat_eq (n : Nat) (f : Nat → Bool) : seqNat n f = f n := by
  cases n <;> rfl

theorem eraChunk0 : checkFrom eraDayFacts 0 15000 = true := by decide!

theorem eraChunk1 : checkFrom eraDayFacts 15000 15000 = true := by decide!

theorem eraChunk2 : checkFrom eraDayFacts 30000 15000 = true := by decide!

theorem eraChunk3 : checkFrom eraDayFacts 45000 15000 = true := by decide!

theorem eraChunk4 : checkFrom eraDayFacts 60000 15000 = true := by decide!

theorem eraChunk5 : checkFrom eraDayFacts 75000 15000 = true := by decide!

theorem eraChunk6 : checkFrom eraDayFacts 90000 15000 = true := by decide!

theorem eraChunk7 : checkFrom eraDayFacts 105000 15000 = true := by decide!

theorem eraChunk8 : checkFrom eraDayFacts 120000 15000 = true := by decide!

theorem eraChunk9 : checkFrom eraDayFacts 135000 11097 = true := by decide!

theorem checkFrom_covers (P : Nat → Bool) (lo len doe : Nat)
    (hc : checkFrom P lo len = true) (h1 : lo ≤ doe) (h2 : doe < lo + len) :
    P doe = true := by
  have hs := checkFrom_sound P lo len hc (doe - lo) (by omega)
  have heq : lo + (doe - lo) = doe := by omega
  rwa [heq] at hs

theorem eraDayFacts_all (doe : Nat) (h : doe < 146097) : eraDayFacts doe = true := by
  rcases Nat.lt_or_ge doe 15000 with h0 | h0
  · exact checkFrom_covers _ _ _ _ eraChunk0 (by omega) (by omega)
  rcases Nat.lt_or_ge doe 30000 with h1 | h1
  · exact checkFrom_covers _ _ _ _ eraChunk1 (by omega) (by omega)
  rcases Nat.lt_or_ge doe 45000 with h2 | h2
  · exact checkFrom_covers _ _ _ _ eraChunk2 (by omega) (by omega)
  rcases Nat.lt_or_ge doe 60000 with h3 | h3
  · exact checkFrom_covers _ _ _ _ eraChunk3 (by omega) (by omega)
  rcases Nat.lt_or_ge doe 75000 with h4 | h4
  · exact checkFrom_covers _ _ _ _ eraChunk4 (by omega) (by omega)
  rcases Nat.lt_or_ge doe 90000 with h5 | h5
  · exact checkFrom_covers _ _ _ _ eraChunk5 (by omega) (by omega)
  rcases Nat.lt_or_ge doe 105000 with h6 | h6
  · exact checkFrom_covers _ _ _ _ eraChunk6 (by omega) (by omega)
  rcases Nat.lt_or_ge doe 120000 with h7 | h7
  · exact checkFrom_covers _ _ _ _ eraChunk7 (by omega) (by omega)
  rcases Nat.lt_or_ge doe 135000 with h8 | h8
  · exact checkFrom_covers _ _ _ _ eraChunk8 (by omega) (by omega)
  exact checkFrom_covers _ _ _ _ eraChunk9 (by omega) (by omega)

theorem eraDayFacts_spec (doe : Nat) (h : doe < 146097) :
    yoeOf doe ≤ 399 ∧ ysOf doe ≤ doe ∧ 1 ≤ monthOf doe ∧ monthOf doe ≤ 12 ∧
      1 ≤ dayOf doe ∧ dayOf doe ≤ 31 ∧
      ysOf doe +
        ((153 * (if 2 < monthOf doe then monthOf doe - 3 else monthOf doe + 9) + 2) / 5 +
          dayOf doe - 1) = doe ∧
      ¬(monthOf doe ≤ 2 ∧ yoeOf doe = 399 ∧ doe < 146037) := by
  have hb := eraDayFacts_all doe h
  unfold eraDayFacts at hb
  simp only [seqNat_eq, Bool.and_eq_true, decide_eq_true_eq] at hb
  obtain ⟨⟨⟨⟨⟨⟨⟨b1, b2⟩, b3⟩, b4⟩, b5⟩, b6⟩, b7⟩, b8⟩ := hb
  simp only [yoeOf, ysOf, doyOf, mpOf, dayOf, monthOf]
  exact ⟨b1, b2, b3, b4, b5, b6, b7, b8⟩

theorem civilFromDays_fst (z : Nat) :
    (civilFromDays z).1 =
      if monthOf ((z + 719468) % 146097) ≤ 2
        then yoeOf ((z + 719468) % 146097) + (z + 719468) / 146097 * 400 + 1
        else yoeOf ((z + 719468) % 146097) + (z + 719468) / 146097 * 400 := rfl

theorem civilFromDays_month (z : Nat) :
    (civilFromDays z).2.1 = monthOf ((z + 719468) % 146097) := rfl

theorem civilFromDays_day (z : Nat) :
    (civilFromDays z).2.2 = dayOf ((z + 719468) % 146097) := rfl

theorem daysFromCivil_eq (y m d : Nat) :
    daysFromCivil y m d =
      (y - (if m ≤ 2 then 1 else 0)) / 400 * 146097 +
        (((y - (if m ≤ 2 then 1 else 0)) -
              (y - (if m ≤ 2 then 1 else 0)) / 400 * 400) * 365 +
            ((y - (if m ≤ 2 then 1 else 0)) -
              (y - (if m ≤ 2 then 1 else 0)) / 400 * 400) / 4 -
            ((y - (if m ≤ 2 then 1 else 0)) -
              (y - (if m ≤ 2 then 1 else 0)) / 400 * 400) / 100 +
            ((153 * (if 2 < m then m - 3 else m + 9) + 2) / 5 + d - 1)) - 719468 := rfl

theorem daysFromCivil_glue (era yoe m d : Nat) (hyoe : yoe ≤ 399) :
    daysFromCivil (if m ≤ 2 then yoe + era * 400 + 1 else yoe + era * 400) m d =
      era * 146097 +
        (365 * yoe + yoe / 4 - yoe / 100 +
          ((153 * (if 2 < m then m - 3 else m + 9) + 2) / 5 + d - 1)) - 719468 := by
  have hA : (yoe + era * 400) / 400 = era := by omega
  rw [daysFromCivil_eq]
  split_ifs <;>
    (simp only [Nat.sub_zero, Nat.add_sub_cancel]; rw [hA];
     simp only [Nat.add_sub_cancel]; omega)

theorem civil_inverse (z : Nat) (hz : z < 2932897) :
    daysFromCivil (civilFromDays z).1 (civilFromDays z).2.1 (civilFromDays z).2.2 = z ∧
      (civilFromDays z).1 ≤ 9999 ∧ 1 ≤ (civilFromDays z).2.1 ∧ (civilFromDays z).2.1 ≤ 12 ∧
      1 ≤ (civilFromDays z).2.2 ∧ (civilFromDays z).2.2 ≤ 31 := by
  have hdoe : (z + 719468) % 146097 < 146097 := Nat.mod_lt _ (by norm_num)
  have hspec := eraDayFacts_spec ((z + 719468) % 146097) hdoe
  obtain ⟨h1, h2, h3, h4, h5, h6, h7, h8⟩ := hspec
  rw [civilFromDays_fst, civilFromDays_month, civilFromDays_day,
    daysFromCivil_glue ((z + 719468) / 146097) (yoeOf ((z + 719468) % 146097))
      (monthOf ((z + 719468) % 146097)) (dayOf ((z + 719468) % 146097)) h1]
  unfold ysOf at h7
  rw [h7]
  refine ⟨by omega, ?_, by omega, by omega, by omega, by omega⟩
  split_ifs <;> omega

theorem padDigits_two (n : Nat) :
    padDigits 2 n = [natDigitChar (n / 10 % 10), natDigitChar (n % 10)] := rfl

theorem padDigits_three (n : Nat) :
    padDigits 3 n = [natDigitChar (n / 10 / 10 % 10), natDigitChar (n / 10 % 10),
      natDigitChar (n % 10)] := rfl

theorem padDigits_four (n : Nat) :
    padDigits 4 n = [natDigitChar (n / 10 / 10 / 10 % 10), natDigitChar (n / 10 / 10 % 10),
      natDigitChar (n / 10 % 10), natDigitChar (n % 10)] := rfl

theorem digitVal_natDigitChar (k : Nat) (h : k < 10) : digitVal (natDigitChar k) = k := by
  interval_cases k <;> rfl

theorem readDigits_list2 (v : Nat) (h : v < 100) :
    readDigits [natDigitChar (v / 10 % 10), natDigitChar (v % 10)] 0 = v := by
  simp only [readDigits]
  rw [digitVal_natDigitChar _ (Nat.mod_lt _ (by norm_num)),
    digitVal_natDigitChar _ (Nat.mod_lt _ (by norm_num))]
  omega

theorem readDigits_list3 (v : Nat) (h : v < 1000) :
    readDigits [natDigitChar (v / 10 / 10 % 10), natDigitChar (v / 10 % 10),
      natDigitChar (v % 10)] 0 = v := by
  simp only [readDigits]
  rw [digitVal_natDigitChar _ (Nat.mod_lt _ (by norm_num)),
    digitVal_natDigitChar _ (Nat.mod_lt _ (by norm_num)),
    digitVal_natDigitChar _ (Nat.mod_lt _ (by norm_num))]
  omega

theorem readDigits_list4 (v : Nat) (h : v < 10000) :
    readDigits [natDigitChar (v / 10 / 10 / 10 % 10), natDigitChar (v / 10 / 10 % 10),
      natDigitChar (v / 10 % 10), natDigitChar (v % 10)] 0 = v := by
  simp only [readDigits]
  rw [digitVal_natDigitChar _ (Nat.mod_lt _ (by norm_num)),
    digitVal_natDigitChar _ (Nat.mod_lt _ (by norm_num)),
    digitVal_natDigitChar _ (Nat.mod_lt _ (by norm_num)),
    digitVal_natDigitChar _ (Nat.mod_lt _ (by norm_num))]
  omega

theorem dateISO_roundtrip (n : Nat) (h : n < ISODateBound) :
    dateFromISOString (dateToISOString n) = n := by
  have hz : n / 86400000 < 2932897 := by
    unfold ISODateBound at h
    omega
  obtain ⟨hinv, hy, hm1, hm2, hd1, hd2⟩ := civil_inverse (n / 86400000) hz
  unfold dateFromISOString dateToISOString dateToISOChars
  simp only [padDigits_two, padDigits_three, padDigits_four, List.cons_append,
    List.nil_append, List.append_assoc]
  simp only [parseISOChars]
  simp only [and_self, ite_true]
  rw [readDigits_list4 _ (by omega), readDigits_list2 _ (by omega),
    readDigits_list2 _ (by omega), readDigits_list2 _ (by omega),
    readDigits_list2 _ (by omega), readDigits_list2 _ (by omega),
    readDigits_list3 _ (by omega)]
  rw [hinv]
  omega

theorem toStored_rehydrate (t : Task) (h1 : t.createdAt < ISODateBound)
    (h2 : t.updatedAt < ISODateBound) : t.toStored.rehydrate = t := by
  unfold Task.toStored StoredTask.rehydrate
  rw [dateISO_roundtrip _ h1, dateISO_roundtrip _ h2]

theorem rehydrate_map (tasks : List Task)
    (hbound : ∀ t ∈ tasks, t.createdAt < ISODateBound ∧ t.updatedAt < ISODateBound) :
    (tasks.map Task.toStored).map StoredTask.rehydrate = tasks := by
  induction tasks with
  | nil => rfl
  | cons t ts ih =>
      have hb := hbound t (by simp)
      simp only [List.map_cons, List.cons.injEq]
      constructor
      · exact toStored_rehydrate t hb.1 hb.2
      · exact ih (fun u hu => hbound u (by simp [hu]))

theorem broadcast_setItem_count (observers : List Nat) (tasks : List Task) :
    ((broadcastEvents observers tasks).filter (Event.isSetItemKey STORAGE_KEY)).length = 1 := by
  unfold broadcastEvents
  induction observers with
  | nil => rfl
  | cons o os ih => simpa [List.filter, Event.isSetItemKey] using ih

theorem broadcast_update_count (observers : List Nat) (tasks : List Task) (l : Nat) :
    ((broadcastEvents observers tasks).filter (Event.isUpdate l)).length
      = observers.count l := by
  unfold broadcastEvents
  induction observers with
  | nil => rfl
  | cons o os ih =>
      simp only [List.map_cons, List.cons_append, List.filter_cons, List.count_cons]
      by_cases h : o = l
      · subst h
        simp only [Event.isUpdate, BEq.refl, if_true, List.length_cons, ih]
      · have hbeq : (o == l) = false := by simp [h]
        simp only [Event.isUpdate, hbeq, Bool.false_eq_true, if_false, ih]
        simp [hbeq]

theorem broadcast_update_payload (observers : List Nat) (tasks : List Task) :
    ∀ e ∈ broadcastEvents observers tasks, ∀ l ts, e = Event.update l ts → ts = tasks := by
  intro e he l ts heq
  unfold broadcastEvents at he
  rcases List.mem_append.mp he with hm | hm
  · obtain ⟨o, _, rfl⟩ := List.mem_map.mp hm
    cases heq
    rfl
  · simp at hm
    subst hm
    cases heq

theorem createTask_events (svc : TaskService) (title description : String)
    (priority : TaskPriority) (id : String) (now : Nat) :
    (svc.createTask title description priority id now).2.1 =
      broadcastEvents svc.taskSubject.observers
        (svc.createTask title description priority id now).1.taskSubject.tasks := rfl

theorem updateTask_events (svc : TaskService) (task : Task) (now : Nat) :
    (svc.updateTask task now).2 =
      broadcastEvents svc.taskSubject.observers
        (svc.updateTask task now).1.taskSubject.tasks := rfl

theorem deleteTask_events (svc : TaskService) (taskId : String) :
    (svc.deleteTask taskId).2 =
      broadcastEvents svc.taskSubject.observers
        (svc.deleteTask taskId).1.taskSubject.tasks := rfl

theorem changeTaskState_unfold (svc : TaskService) (task : Task) (newState : TaskState)
    (nowHandle nowUpdate : Nat) :
    svc.changeTaskState task newState nowHandle nowUpdate =
      ((svc.updateTask { task with state := newState, updatedAt := nowHandle } nowUpdate).1,
       (svc.updateTask { task with state := newState, updatedAt := nowHandle } nowUpdate).2,
       { task with state := newState, updatedAt := nowHandle }) := by
  cases newState <;> rfl

/-- Claim C1: every mutating operation notifies each registered listener exactly
once with the post-mutation collection and persists exactly once. -/
theorem mutating_ops_notify_once_persist_once (svc : TaskService)
    (title description : String) (priority : TaskPriority) (id : String)
    (now : Nat) (task : Task) (nowHandle nowUpdate : Nat) (newState : TaskState)
    (taskId : String) :
    (svc.createTask title description priority id now).2.1 =
        broadcastEvents svc.taskSubject.observers
          (svc.createTask title description priority id now).1.taskSubject.tasks ∧
      (svc.updateTask task now).2 =
        broadcastEvents svc.taskSubject.observers
          (svc.updateTask task now).1.taskSubject.tasks ∧
      (svc.deleteTask taskId).2 =
        broadcastEvents svc.taskSubject.observers
          (svc.deleteTask taskId).1.taskSubject.tasks ∧
      (svc.changeTaskState task newState nowHandle nowUpdate).2.1 =
        broadcastEvents svc.taskSubject.observers
          (svc.changeTaskState task newState nowHandle nowUpdate).1.taskSubject.tasks ∧
      ∀ (observers : List Nat) (tasks : List Task),
        ((broadcastEvents observers tasks).filter (Event.isSetItemKey STORAGE_KEY)).length
            = 1 ∧
          (∀ l, ((broadcastEvents observers tasks).filter (Event.isUpdate l)).length
            = observers.count l) ∧
          ∀ e ∈ broadcastEvents observers tasks, ∀ l ts, e = Event.update l ts →
            ts = tasks := by
  refine ⟨rfl, rfl, rfl, ?_, ?_⟩
  · rw [changeTaskState_unfold]
    exact updateTask_events svc { task with state := newState, updatedAt := nowHandle }
      nowUpdate
  · intro observers tasks
    exact ⟨broadcast_setItem_count observers tasks,
      fun l => broadcast_update_count observers tasks l,
      broadcast_update_payload observers tasks⟩

/-- Claim C2: changeTaskState picks the handler by the target state, stamps the
task with that state and a fresh updatedAt, delegates to updateTask, and emits
exactly one persist and one update per registration. -/
theorem changeTaskState_selects_by_target (svc : TaskService) (task : Task)
    (newState : TaskState) (nowHandle nowUpdate : Nat) :
    (svc.changeTaskState task newState nowHandle nowUpdate).2.2 =
        { task with state := newState, updatedAt := nowHandle } ∧
      (svc.changeTaskState task newState nowHandle nowUpdate).2.2.state = newState ∧
      (svc.changeTaskState task newState nowHandle nowUpdate).2.2.updatedAt = nowHandle ∧
      (svc.changeTaskState task newState nowHandle nowUpdate).1 =
        (svc.updateTask { task with state := newState, updatedAt := nowHandle } nowUpdate).1 ∧
      (svc.changeTaskState task newState nowHandle nowUpdate).2.1 =
        (svc.updateTask { task with state := newState, updatedAt := nowHandle } nowUpdate).2 ∧
      ((svc.changeTaskState task newState nowHandle nowUpdate).2.1.filter
          (Event.isSetItemKey STORAGE_KEY)).length = 1 ∧
      ∀ l, ((svc.changeTaskState task newState nowHandle nowUpdate).2.1.filter
          (Event.isUpdate l)).length = svc.taskSubject.observers.count l := by
  rw [changeTaskState_unfold]
  refine ⟨rfl, ?_, rfl, rfl, rfl, ?_, ?_⟩
  · cases task
    rfl
  · rw [updateTask_events]
    exact broadcast_setItem_count _ _
  · intro l
    rw [updateTask_events]
    exact broadcast_update_count _ _ l

/-- Claim C3: getPossibleNextState and getPossiblePreviousState are pure
queries returning exactly the advisory transition table of the four states. -/
theorem possible_states_match_table (svc : TaskService) (task : Task) :
    svc.getPossibleNextState task =
        (match task.state with
          | TaskState.NEW => some TaskState.IN_PROGRESS
          | TaskState.IN_PROGRESS => some TaskState.COMPLETED
          | TaskState.COMPLETED => none
          | TaskState.POSTPONED => some TaskState.IN_PROGRESS) ∧
      svc.getPossiblePreviousState task =
        (match task.state with
          | TaskState.NEW => none
          | TaskState.IN_PROGRESS => some TaskState.NEW
          | TaskState.COMPLETED => some TaskState.IN_PROGRESS
          | TaskState.POSTPONED => some TaskState.NEW) := by
  obtain ⟨tid, ttitle, tdescription, tstate, tpriority, tcreated, tupdated⟩ := task
  cases tstate <;> exact ⟨rfl, rfl⟩

theorem tasksWF_updateTask (svc : TaskService) (task : Task) (now : Nat)
    (hwf : tasksWF svc.taskSubject.tasks) (hc : task.createdAt ≤ now) :
    tasksWF (svc.updateTask task now).1.taskSubject.tasks := by
  intro t ht
  have ht2 : t ∈ svc.taskSubject.tasks.map (fun u =>
      if u.id = task.id then { task with updatedAt := now } else u) := ht
  rcases List.mem_map.mp ht2 with ⟨u, hu, rfl⟩
  by_cases h : u.id = task.id
  · simpa [h] using hc
  · simpa [h] using hwf u hu

/-- Claim C4: updateTask replaces the matching-id task with the argument
stamped at call time, ignores the caller supplied updatedAt, leaves the
collection unchanged in content when the id is absent, and still notifies
once and persists once. -/
theorem updateTask_replaces_by_id (svc : TaskService) (task : Task) (now : Nat)
    (hclock : ∀ t ∈ svc.taskSubject.tasks, t.updatedAt ≤ now) :
    (svc.updateTask task now).1.taskSubject.tasks =
        svc.taskSubject.tasks.map (fun t =>
          if t.id = task.id then { task with updatedAt := now } else t) ∧
      (∀ u, svc.updateTask { task with updatedAt := u } now = svc.updateTask task now) ∧
      (∀ t ∈ svc.taskSubject.tasks, t.id = task.id → t.updatedAt ≤ now) ∧
      ((∀ t ∈ svc.taskSubject.tasks, t.id ≠ task.id) →
        (svc.updateTask task now).1.taskSubject.tasks = svc.taskSubject.tasks) ∧
      (svc.updateTask task now).2 =
        broadcastEvents svc.taskSubject.observers
          (svc.updateTask task now).1.taskSubject.tasks := by
  refine ⟨rfl, fun u => rfl, fun t ht _ => hclock t ht, ?_, updateTask_events svc task now⟩
  intro hnone
  have h1 : (svc.updateTask task now).1.taskSubject.tasks =
      svc.taskSubject.tasks.map (fun t =>
        if t.id = task.id then { task with updatedAt := now } else t) := rfl
  rw [h1]
  have h2 : ∀ t ∈ svc.taskSubject.tasks,
      (if t.id = task.id then { task with updatedAt := now } else t) = t :=
    fun t ht => if_neg (hnone t ht)
  have h3 := List.map_congr_left h2
  simpa using h3

/-- Claim C5: createTask builds a NEW task with equal timestamps, the given
title, description and priority, a fresh id, appends it as the last element,
and accepts a blank title. -/
theorem createTask_builds_new_task (svc : TaskService) (title description : String)
    (priority : TaskPriority) (id : String) (now : Nat)
    (hfresh : id ∉ svc.taskSubject.tasks.map Task.id) :
    (svc.createTask title description priority id now).2.2.state = TaskState.NEW ∧
      (svc.createTask title description priority id now).2.2.createdAt = now ∧
      (svc.createTask title description priority id now).2.2.updatedAt = now ∧
      (svc.createTask title description priority id now).2.2.title = title ∧
      (svc.createTask title description priority id now).2.2.description = description ∧
      (svc.createTask title description priority id now).2.2.priority = priority ∧
      (svc.createTask title description priority id now).2.2.id = id ∧
      (∀ t ∈ svc.taskSubject.tasks, t.id ≠ id) ∧
      (svc.createTask title description priority id now).1.taskSubject.tasks =
        svc.taskSubject.tasks ++ [(svc.createTask title description priority id now).2.2] := by
  refine ⟨rfl, rfl, rfl, rfl, rfl, rfl, rfl, ?_, rfl⟩
  intro t ht heq
  exact hfresh (List.mem_map.mpr ⟨t, ht, heq⟩)

/-- Claim C6: updatedAt is at least createdAt for every stored task: equal at
construction and preserved by every mutating operation under a monotone
clock. -/
theorem updatedAt_ge_createdAt_invariant :
    (∀ (title description : String) (priority : TaskPriority) (id : String) (now : Nat),
      (ConcreteTaskFactory.createTask title description priority id now).createdAt =
        (ConcreteTaskFactory.createTask title description priority id now).updatedAt) ∧
      (∀ (svc : TaskService) (title description : String) (priority : TaskPriority)
          (id : String) (now : Nat), tasksWF svc.taskSubject.tasks →
        tasksWF (svc.createTask title description priority id now).1.taskSubject.tasks) ∧
      (∀ (svc : TaskService) (task : Task) (now : Nat),
        tasksWF svc.taskSubject.tasks → task.createdAt ≤ now →
          tasksWF (svc.updateTask task now).1.taskSubject.tasks) ∧
      (∀ (svc : TaskService) (taskId : String), tasksWF svc.taskSubject.tasks →
        tasksWF (svc.deleteTask taskId).1.taskSubject.tasks) ∧
      (∀ (svc : TaskService) (task : Task) (newState : TaskState)
          (nowHandle nowUpdate : Nat),
        tasksWF svc.taskSubject.tasks → task.createdAt ≤ nowUpdate →
          tasksWF (svc.changeTaskState task newState nowHandle nowUpdate).1.taskSubject.tasks) := by
  refine ⟨fun _ _ _ _ _ => rfl, ?_, tasksWF_updateTask, ?_, ?_⟩
  · intro svc title description priority id now hwf t ht
    have ht2 : t ∈ svc.taskSubject.tasks ++
        [ConcreteTaskFactory.createTask title description priority id now] := ht
    rcases List.mem_append.mp ht2 with h | h
    · exact hwf t h
    · have : t = ConcreteTaskFactory.createTask title description priority id now := by
        simpa using h
      subst this
      exact Nat.le_refl _
  · intro svc taskId hwf t ht
    have ht2 : t ∈ svc.taskSubject.tasks.filter (fun u => u.id ≠ taskId) := ht
    exact hwf t (List.mem_of_mem_filter ht2)
  · intro svc task newState nowHandle nowUpdate hwf hc
    have h1 : (svc.changeTaskState task newState nowHandle nowUpdate).1 =
        (svc.updateTask { task with state := newState, updatedAt := nowHandle } nowUpdate).1 := by
      rw [changeTaskState_unfold]
    rw [h1]
    exact tasksWF_updateTask svc _ nowUpdate hwf hc

/-- Claim C7: saving the collection under the fixed key and loading it back
reproduces every field, with timestamps round-tripped through their ISO 8601
strings. -/
theorem storage_roundtrip (tasks : List Task) (svc1 svc2 : TaskService)
    (hhold : svc1.taskSubject.tasks = tasks)
    (hbound : ∀ t ∈ tasks, t.createdAt < ISODateBound ∧ t.updatedAt < ISODateBound) :
    svc1.saveTasks = [Event.setItem STORAGE_KEY (tasks.map Task.toStored)] ∧
      (svc2.loadTasks (some (tasks.map Task.toStored))).1.taskSubject.tasks = tasks := by
  constructor
  · unfold TaskService.saveTasks TaskSubject.getTasks
    rw [hhold]
  · show (tasks.map Task.toStored).map StoredTask.rehydrate = tasks
    exact rehydrate_map tasks hbound

theorem setTasks_update_count (su : TaskSubject) (ts : List Task) (l : Nat) :
    ((su.setTasks ts).2.filter (Event.isUpdate l)).length = su.observers.count l := by
  show ((su.observers.map (fun o => Event.update o ts)).filter (Event.isUpdate l)).length
    = su.observers.count l
  induction su.observers with
  | nil => rfl
  | cons o os ih =>
      simp only [List.map_cons, List.filter_cons, List.count_cons]
      by_cases h : o = l
      · subst h
        simp only [Event.isUpdate, BEq.refl, if_true, List.length_cons, ih]
      · have hbeq : (o == l) = false := by simp [h]
        simp only [Event.isUpdate, hbeq, Bool.false_eq_true, if_false, ih]
        simp [hbeq]

/-- Claim C8: per change each listener is called once per registration; attach
registers without deduplication, detach removes one registration by identity
and is a no-op on unregistered listeners, and a detached listener receives no
further notifications. -/
theorem observer_attach_detach (su : TaskSubject) (l : Nat) (ts : List Task) :
    ((su.setTasks ts).2.filter (Event.isUpdate l)).length = su.observers.count l ∧
      (su.attach l).observers.count l = su.observers.count l + 1 ∧
      (∀ m, m ≠ l → (su.attach l).observers.count m = su.observers.count m) ∧
      (l ∈ su.observers → (su.detach l).observers.count l = su.observers.count l - 1) ∧
      (l ∉ su.observers → su.detach l = su) ∧
      (su.observers.count l ≤ 1 →
        ((su.detach l).setTasks ts).2.filter (Event.isUpdate l) = []) := by
  refine ⟨setTasks_update_count su ts l, ?_, ?_, ?_, ?_, ?_⟩
  · show (su.observers ++ [l]).count l = su.observers.count l + 1
    simp [List.count_append]
  · intro m hm
    show (su.observers ++ [l]).count m = su.observers.count m
    simp [List.count_append, List.count_cons, Ne.symm hm]
  · intro hmem
    show (su.observers.erase l).count l = su.observers.count l - 1
    exact List.count_erase_self l su.observers
  · intro hmem
    unfold TaskSubject.detach
    rw [List.erase_of_not_mem hmem]
  · intro hcount
    have hlen := setTasks_update_count (su.detach l) ts l
    have hz : (su.detach l).observers.count l = 0 := by
      show (su.observers.erase l).count l = 0
      have h := List.count_erase_self l su.observers
      omega
    rw [hz] at hlen
    exact List.eq_nil_of_length_eq_zero hlen

/-- Claim C9: the priority lookup maps HIGH to rank 3 and #ff4d4d, MEDIUM to
rank 2 and #ffa64d, LOW to rank 1 and #4dff4d, and any value outside the
enumeration to the MEDIUM entry. -/
theorem priority_lookup_table :
    PriorityStrategyFactory.getStrategy TaskPriority.HIGH.value = HighPriorityStrategy ∧
      PriorityStrategyFactory.getStrategy TaskPriority.MEDIUM.value = MediumPriorityStrategy ∧
      PriorityStrategyFactory.getStrategy TaskPriority.LOW.value = LowPriorityStrategy ∧
      HighPriorityStrategy.getPriorityLevel = 3 ∧
      HighPriorityStrategy.getColor = "#ff4d4d" ∧
      MediumPriorityStrategy.getPriorityLevel = 2 ∧
      MediumPriorityStrategy.getColor = "#ffa64d" ∧
      LowPriorityStrategy.getPriorityLevel = 1 ∧
      LowPriorityStrategy.getColor = "#4dff4d" ∧
      ∀ p : String, (∀ q : TaskPriority, p ≠ q.value) →
        PriorityStrategyFactory.getStrategy p = MediumPriorityStrategy := by
  refine ⟨rfl, rfl, rfl, rfl, rfl, rfl, rfl, rfl, rfl, ?_⟩
  intro p hp
  unfold PriorityStrategyFactory.getStrategy
  split
  · exact absurd rfl (hp TaskPriority.HIGH)
  · exact absurd rfl (hp TaskPriority.MEDIUM)
  · exact absurd rfl (hp TaskPriority.LOW)
  · rfl

/-- Claim C10: updateTask and deleteTask leave every other-id task unchanged
in place, preserve relative order of survivors, and updateTask preserves
length. -/
theorem update_delete_frame (svc : TaskService) (task : Task) (now : Nat)
    (taskId : String) :
    (svc.updateTask task now).1.taskSubject.tasks.length =
        svc.taskSubject.tasks.length ∧
      (∀ i (hi : i < svc.taskSubject.tasks.length),
        svc.taskSubject.tasks[i].id ≠ task.id →
          (svc.updateTask task now).1.taskSubject.tasks[i]? =
            some svc.taskSubject.tasks[i]) ∧
      List.Sublist (svc.deleteTask taskId).1.taskSubject.tasks svc.taskSubject.tasks ∧
      (∀ t ∈ svc.taskSubject.tasks, t.id ≠ taskId →
        t ∈ (svc.deleteTask taskId).1.taskSubject.tasks) ∧
      (∀ t ∈ (svc.deleteTask taskId).1.taskSubject.tasks,
        t ∈ svc.taskSubject.tasks ∧ t.id ≠ taskId) := by
  refine ⟨?_, ?_, ?_, ?_, ?_⟩
  · show (svc.taskSubject.tasks.map (fun t =>
        if t.id = task.id then { task with updatedAt := now } else t)).length = _
    exact List.length_map _ _
  · intro i hi hne
    show (svc.taskSubject.tasks.map (fun t =>
        if t.id = task.id then { task with updatedAt := now } else t))[i]? = _
    rw [List.getElem?_map, List.getElem?_eq_getElem hi]
    simp [hne]
  · show List.Sublist (svc.taskSubject.tasks.filter (fun t => t.id ≠ taskId)) _
    exact List.filter_sublist _
  · intro t ht hne
    show t ∈ svc.taskSubject.tasks.filter (fun t => t.id ≠ taskId)
    rw [List.mem_filter]
    exact ⟨ht, by simp [hne]⟩
  · intro t ht
    have ht2 : t ∈ svc.taskSubject.tasks.filter (fun t => t.id ≠ taskId) := ht
    have hm := List.mem_filter.mp ht2
    exact ⟨hm.1, by simpa using hm.2⟩

theorem mutating_ops_notify_once_persist_once_witness :
    (sampleService.deleteTask sampleMissingId).2 =
        broadcastEvents sampleService.taskSubject.observers
          (sampleService.deleteTask sampleMissingId).1.taskSubject.tasks ∧
      ((broadcastEvents [7] [sampleTaskA]).filter
        (Event.isSetItemKey STORAGE_KEY)).length = 1 := by
  have h := mutating_ops_notify_once_persist_once sampleService blankTitle
    sampleDescription TaskPriority.LOW sampleFreshId 5 sampleTaskB 6 7
    TaskState.COMPLETED sampleMissingId
  exact ⟨h.2.2.1, (h.2.2.2.2 [7] [sampleTaskA]).1⟩

theorem updateTask_replaces_by_id_witness :
    (sampleService.updateTask sampleTaskB 500).1.taskSubject.tasks = [sampleTaskA] := by
  have h := updateTask_replaces_by_id sampleService sampleTaskB 500 (by decide)
  exact h.2.2.2.1 (by decide)

theorem createTask_builds_new_task_witness :
    (sampleService.createTask blankTitle sampleDescription TaskPriority.MEDIUM
        sampleFreshId 300).2.2.state = TaskState.NEW ∧
      (sampleService.createTask blankTitle sampleDescription TaskPriority.MEDIUM
        sampleFreshId 300).2.2.title = blankTitle := by
  have h := createTask_builds_new_task sampleService blankTitle sampleDescription
    TaskPriority.MEDIUM sampleFreshId 300 (by decide)
  exact ⟨h.1, h.2.2.2.1⟩

theorem updatedAt_ge_createdAt_invariant_witness :
    tasksWF (sampleService.updateTask sampleTaskB 500).1.taskSubject.tasks := by
  have h := updatedAt_ge_createdAt_invariant
  exact h.2.2.1 sampleService sampleTaskB 500 (by unfold tasksWF; decide) (by decide)

theorem storage_roundtrip_witness :
    (sampleService.loadTasks (some ([sampleTaskA].map Task.toStored))).1.taskSubject.tasks
      = [sampleTaskA] := by
  have h := storage_roundtrip [sampleTaskA] sampleService sampleService rfl (by decide)
  exact h.2

theorem observer_attach_detach_witness :
    (sampleSubject.attach 7).observers.count 7 = sampleSubject.observers.count 7 + 1 ∧
      (sampleSubject.detach 7).observers.count 7 = sampleSubject.observers.count 7 - 1 ∧
      ((sampleSubject.detach 7).setTasks []).2.filter (Event.isUpdate 7) = [] := by
  have h := observer_attach_detach sampleSubject 7 []
  exact ⟨h.2.1, h.2.2.2.1 (by decide), h.2.2.2.2.2 (by decide)⟩

theorem priority_lookup_table_witness :
    PriorityStrategyFactory.getStrategy sampleUnknownPriority = MediumPriorityStrategy := by
  have h := priority_lookup_table
  refine h.2.2.2.2.2.2.2.2.2 sampleUnknownPriority ?_
  intro q
  cases q <;> decide

theorem update_delete_frame_witness :
    sampleTaskA ∈ (sampleService.deleteTask sampleMissingId).1.taskSubject.tasks ∧
      (sampleService.updateTask sampleTaskB 500).1.taskSubject.tasks.length =
        sampleService.taskSubject.tasks.length := by
  have h := update_delete_frame sampleService sampleTaskB 500 sampleMissingId
  exact ⟨h.2.2.2.1 sampleTaskA (by decide) (by decide), h.1⟩

end Todo
